import Mathlib

/-!
Shallow embedding of the Pcholfarm economy engine (src/App.py).

The Python source keeps its state in a Postgres store; here the store is a
`State` structure of row lists, and each command handler becomes a pure
function `State → ... → Result × State`.  SQL `SERIAL` ids become explicit
counters (`nextBeeId`, `nextListingId`); timestamps are integers (seconds),
and the 24-hour cooldown of `cmd_daily_spin` is 86400 seconds.  Randomness
(`secrets.randbelow`, `secrets.choice`, `ORDER BY RANDOM()`) is passed in as
explicit parameters (a percentile roll, a choice index `Fin 3`, a picked
template, a picked part type).  Coin balances (`BIGINT`) and part amounts
(`INTEGER`) are modelled as `Int`: the schema has no CHECK constraints, so
negative values are representable, exactly as in Postgres.
-/

namespace PcholFarm

/-- The six rarity tiers, in the order of the `RARITIES` list of the source:
"Обычная" (common), "Сверхредкая" (super-rare), "Эпическая" (epic),
"Легендарная" (legendary), "Мифическая" (mythic), "Дикая" (wild). -/
inductive Rarity where
  | common
  | superRare
  | epic
  | legendary
  | mythic
  | wild
deriving DecidableEq

/-- `RARITIES` — the catalog's rarity-tier order, most common first. -/
def RARITIES : List Rarity :=
  [.common, .superRare, .epic, .legendary, .mythic, .wild]

/-- The four part kinds of `PART_TYPES`: "крылья" (wing), "тельце" (body),
"жало" (sting), "голова" (head). -/
inductive PartType where
  | wing
  | body
  | sting
  | head
deriving DecidableEq

/-- `PART_TYPES = ["крылья", "тельце", "жало", "голова"]`. -/
def PART_TYPES : List PartType := [.wing, .body, .sting, .head]

/-- The three roles of `ROLES`: "Танк", "Хиллер", "Саппорт". -/
inductive Role where
  | tank
  | healer
  | support
deriving DecidableEq

/-- `RARITY_BASE_VALUE` — sell price per part, per rarity.  The source reads
it with `.get(rarity, 10)`; a rarity value is always one of the six keys, so
the default 10 is unreachable in this typed model. -/
def RARITY_BASE_VALUE : Rarity → Int
  | .common => 50
  | .superRare => 200
  | .epic => 800
  | .legendary => 3000
  | .mythic => 12000
  | .wild => 50000

/-- `secrets.choice([a, b, c])`: the uniformly chosen index is the `Fin 3`
argument. -/
def choice3 (a b c : Nat) : Fin 3 → Nat
  | ⟨0, _⟩ => a
  | ⟨1, _⟩ => b
  | ⟨_ + 2, _⟩ => c

/-- `draw_amount` of the source.  `r = secrets.randbelow(100) + 1` is passed
in as the percentile roll (so `1 ≤ r ≤ 100` for real executions), and the
uniform index of `secrets.choice` is passed in as `c`. -/
def draw_amount (r : Nat) (c : Fin 3) : Nat :=
  if r ≤ 45 then choice3 1 2 3 c
  else if r ≤ 45 + 35 then choice3 4 5 6 c
  else if r ≤ 45 + 35 + 15 then choice3 7 8 9 c
  else 10

/-- A row of the `users` table (the `username`/`nickname`/`created_at`
columns play no role in the economy and are omitted).  `last_spin` is
nullable; `coins` defaults to 0 on insert. -/
structure UserRow where
  id : Nat
  coins : Int
  lastSpin : Option Int
deriving DecidableEq

/-- A row of the `bee_templates` table (name/description omitted). -/
structure Template where
  id : Nat
  rarity : Rarity
  role : Role
  baseValue : Int
deriving DecidableEq

/-- A row of the `parts` table: `UNIQUE(user_id, template_id, part_type,
rarity)`, `amount INTEGER NOT NULL DEFAULT 0`. -/
structure PartRow where
  user : Nat
  template : Nat
  partType : PartType
  rarity : Rarity
  amount : Int
deriving DecidableEq

/-- A row of the `bees` table: `level` defaults to 1, `exp` to 0. -/
structure Bee where
  id : Nat
  user : Nat
  template : Nat
  rarity : Rarity
  role : Role
  level : Int
  exp : Int
deriving DecidableEq

/-- A row of the `market_listings` table.  Creation order is the position in
`State.listings` (the `created_at` column, used only for display ordering,
is represented by that order). -/
structure Listing where
  id : Nat
  seller : Nat
  bee : Nat
  price : Int
deriving DecidableEq

/-- A row of the append-only `spins_log` table. -/
structure SpinLog where
  user : Nat
  template : Nat
  partType : PartType
  rarity : Rarity
  amount : Int
deriving DecidableEq

/-- The whole store.  Row order within each list is insertion order (the
order Postgres scans without `ORDER BY` is unspecified; insertion order is
one faithful realisation). -/
structure State where
  users : List UserRow
  templates : List Template
  parts : List PartRow
  bees : List Bee
  listings : List Listing
  spinsLog : List SpinLog
  nextBeeId : Nat
  nextListingId : Nat
deriving DecidableEq

/-- Does `row` have the stock key `(u, t, pt, r)`? -/
def pKeyMatch (row : PartRow) (u t : Nat) (pt : PartType) (r : Rarity) : Bool :=
  decide (row.user = u ∧ row.template = t ∧ row.partType = pt ∧ row.rarity = r)

/-- `SELECT * FROM parts WHERE user_id=u AND template_id=t AND part_type=pt
AND rarity=r` (at most one row, by the UNIQUE constraint). -/
def findPart (parts : List PartRow) (u t : Nat) (pt : PartType) (r : Rarity) :
    Option PartRow :=
  parts.find? (fun row => pKeyMatch row u t pt r)

/-- The stock amount at a key, defaulting to 0 when no row exists — the
`parts_map.get(pt, 0)` convention of `try_assemble`. -/
def partAmountL (parts : List PartRow) (u t : Nat) (pt : PartType) (r : Rarity) :
    Int :=
  ((findPart parts u t pt r).map (·.amount)).getD 0

/-- Stock amount read off the whole store. -/
def partAmount (s : State) (u t : Nat) (pt : PartType) (r : Rarity) : Int :=
  partAmountL s.parts u t pt r

/-- `SELECT coins FROM users WHERE id=u`, defaulting to 0 for a missing
user. -/
def coinsOf (s : State) (u : Nat) : Int :=
  (((s.users.find? (fun ur => decide (ur.id = u))).map (·.coins)).getD 0)

/-- `SELECT last_spin FROM users WHERE id=u`. -/
def userLastSpin (s : State) (u : Nat) : Option Int :=
  (s.users.find? (fun ur => decide (ur.id = u))).bind (·.lastSpin)

/-- `give_parts_to_user`: `INSERT ... ON CONFLICT ... DO UPDATE SET amount =
parts.amount + EXCLUDED.amount` on the `parts` table, then an append to
`spins_log`. -/
def give_parts_to_user (s : State) (u t : Nat) (pt : PartType) (r : Rarity)
    (amount : Int) : State :=
  let parts' :=
    if s.parts.any (fun row => pKeyMatch row u t pt r) then
      s.parts.map (fun row =>
        if pKeyMatch row u t pt r then { row with amount := row.amount + amount }
        else row)
    else
      s.parts ++ [⟨u, t, pt, r, amount⟩]
  { s with parts := parts', spinsLog := s.spinsLog ++ [⟨u, t, pt, r, amount⟩] }

/-- One `UPDATE parts SET amount = amount - 1 WHERE user_id=u AND
template_id=t AND part_type=pt AND rarity=r` statement of `try_assemble`. -/
def dec_one (parts : List PartRow) (u t : Nat) (pt : PartType) (r : Rarity) :
    List PartRow :=
  parts.map (fun row =>
    if pKeyMatch row u t pt r then { row with amount := row.amount - 1 } else row)

/-- `SELECT role FROM bee_templates WHERE id=t`, defaulting when the template
row is missing.  (The source picks `secrets.choice(ROLES)` in that case; the
claims never depend on the role, so the model uses a fixed default.) -/
def roleOf (s : State) (t : Nat) : Role :=
  (((s.templates.find? (fun tm => decide (tm.id = t))).map (·.role)).getD .tank)

/-- `try_assemble(conn, user_id, template_id, rarity)`: if the user holds at
least 1 of each of the four part types at `(t, r)`, decrement each of the
four rows by 1 and insert one bee (level and exp at their column defaults
1 and 0), returning the new bee id; otherwise return `none` and leave the
store untouched. -/
def try_assemble (s : State) (u t : Nat) (r : Rarity) : Option Nat × State :=
  if PART_TYPES.all (fun pt => decide (1 ≤ partAmountL s.parts u t pt r)) then
    let parts' := PART_TYPES.foldl (fun ps pt => dec_one ps u t pt r) s.parts
    let bee : Bee := ⟨s.nextBeeId, u, t, r, roleOf s t, 1, 0⟩
    (some s.nextBeeId,
      { s with parts := parts', bees := s.bees ++ [bee],
               nextBeeId := s.nextBeeId + 1 })
  else
    (none, s)

/-- The bee inserted by a successful `try_assemble`. -/
def newBee (s : State) (u t : Nat) (r : Rarity) : Bee :=
  ⟨s.nextBeeId, u, t, r, roleOf s t, 1, 0⟩

/-- `UPDATE users SET coins = coins + amt WHERE id=u` (a no-op when the user
row is missing — unlike `add_coins`, the selling path does not upsert). -/
def creditCoins (s : State) (u : Nat) (amt : Int) : State :=
  { s with users := s.users.map (fun ur =>
      if decide (ur.id = u) then { ur with coins := ur.coins + amt } else ur) }

/-- `ensure_user`: insert the user with `coins = 0` (and null `last_spin`)
if absent; on conflict the source only refreshes the username, which this
model does not track, so an existing row is left unchanged. -/
def ensure_user (s : State) (u : Nat) : State :=
  if s.users.any (fun ur => decide (ur.id = u)) then s
  else { s with users := s.users ++ [⟨u, 0, none⟩] }

/-- Outcome of `cmd_daily_spin`. -/
inductive SpinOutcome where
  | cooldown (remaining : Int)
  | noTemplate
  | spun (templateId : Nat) (r : Rarity) (pt : PartType) (amount : Nat)
      (assembled : Option Nat)
deriving DecidableEq

/-- The post-cooldown part of `cmd_daily_spin`: take the random template
(`tp`, none iff the catalog is empty), random part type `pt` and quantity
roll (`r100`, `c`), award the parts, set `last_spin := now`, and
best-effort `try_assemble`. -/
def spin_go (s1 : State) (u : Nat) (now : Int) (tp : Option Template)
    (pt : PartType) (r100 : Nat) (c : Fin 3) : SpinOutcome × State :=
  match tp with
  | none => (.noTemplate, s1)
  | some tmpl =>
    let amount := draw_amount r100 c
    let s2 := give_parts_to_user s1 u tmpl.id pt tmpl.rarity (amount : Int)
    let s3 := { s2 with users := s2.users.map (fun ur =>
      if decide (ur.id = u) then { ur with lastSpin := some now } else ur) }
    let res := try_assemble s3 u tmpl.id tmpl.rarity
    (.spun tmpl.id tmpl.rarity pt amount res.1, res.2)

/-- `cmd_daily_spin`: after `ensure_user`, read `last_spin`; if the last
spin is strictly less than 24 h (86400 s) old, answer the cooldown message
and stop; otherwise spin via `spin_go`. -/
def cmd_daily_spin (s : State) (u : Nat) (now : Int) (tp : Option Template)
    (pt : PartType) (r100 : Nat) (c : Fin 3) : SpinOutcome × State :=
  match userLastSpin (ensure_user s u) u with
  | some last =>
    if now - last < 86400 then
      (.cooldown (86400 - (now - last)), ensure_user s u)
    else spin_go (ensure_user s u) u now tp pt r100 c
  | none => spin_go (ensure_user s u) u now tp pt r100 c

/-- The loop of the `/assemble` branch: try each rarity in order, stopping
at the first success (`if assembled: break`). -/
def assemble_loop (u t : Nat) : State → List Rarity → Option Nat × State
  | s, [] => (none, s)
  | s, r :: rest =>
    match try_assemble s u t r with
    | (some bid, s') => (some bid, s')
    | (none, s') => assemble_loop u t s' rest

/-- The `/assemble <template_id>` branch of `generic_text`: collect the
distinct rarities with positive stock for `(u, t)` (`SELECT DISTINCT rarity
... AND amount>0`), sort them ascending by their index in `RARITIES`
(`rarities.sort(key=lambda x: rar_order.get(x, 999))` — the keys are
distinct, so the stable sort yields exactly the `RARITIES`-order sublist),
and try each in turn. -/
def assemble_cmd (s : State) (u t : Nat) : Option Nat × State :=
  let rarities := RARITIES.filter (fun r =>
    s.parts.any (fun row =>
      decide (row.user = u ∧ row.template = t ∧ row.rarity = r ∧ 0 < row.amount)))
  assemble_loop u t s rarities

/-- Does `row` belong to the `(u, t, pt)` group of the `/sell_part` queries
(any rarity)? -/
def gKeyMatch (row : PartRow) (u t : Nat) (pt : PartType) : Bool :=
  decide (row.user = u ∧ row.template = t ∧ row.partType = pt)

/-- Auxiliary scan realising `ORDER BY amount DESC LIMIT 1`: the first
row (in table order) carrying the maximal amount.  (Postgres leaves the
tie-break unspecified; first-in-order is one faithful realisation.) -/
def best_row : Option PartRow → List PartRow → Option PartRow
  | acc, [] => acc
  | none, row :: rest => best_row (some row) rest
  | some b, row :: rest =>
    best_row (some (if b.amount < row.amount then row else b)) rest

/-- `SELECT amount, rarity FROM parts WHERE user_id=u AND template_id=t AND
part_type=pt ORDER BY amount DESC LIMIT 1`. -/
def selectBest (parts : List PartRow) (u t : Nat) (pt : PartType) :
    Option PartRow :=
  best_row none (parts.filter (fun row => gKeyMatch row u t pt))

/-- The parts-table update of the sale: `UPDATE parts SET amount = amount -
amt WHERE user_id=u AND template_id=t AND part_type=pt AND amount>=amt` —
note the missing rarity filter: every rarity row of the group with enough
stock is hit. -/
def sale_update (parts : List PartRow) (u t : Nat) (pt : PartType)
    (amt : Int) : List PartRow :=
  parts.map (fun q =>
    if gKeyMatch q u t pt && decide (amt ≤ q.amount) then
      { q with amount := q.amount - amt }
    else q)

/-- The `/sell_part <template_id> <part_type> <amount>` branch of
`generic_text`, after argument parsing (`amount = int(text[3])` parses any
integer, negatives included).  Returns `some (rarity, total)` on a sale and
`none` on the "Недостаточно деталей" reply.  On a sale, the stock update is
`sale_update` and the user is credited `total` once. -/
def sell_part (s : State) (u t : Nat) (pt : PartType) (amt : Int) :
    Option (Rarity × Int) × State :=
  match selectBest s.parts u t pt with
  | none => (none, s)
  | some row =>
    if row.amount < amt then (none, s)
    else
      let total := RARITY_BASE_VALUE row.rarity * amt
      let s1 := { s with parts := sale_update s.parts u t pt amt }
      (some (row.rarity, total), creditCoins s1 u total)

/-- The `/sell_bee <bee_id> <price>` branch of `generic_text`: verify
ownership (`SELECT id FROM bees WHERE id=b AND user_id=u`), then insert a
listing.  No price validation and no check for an existing listing. -/
def sell_bee (s : State) (u b : Nat) (price : Int) : Option Nat × State :=
  if s.bees.any (fun bee => decide (bee.id = b ∧ bee.user = u)) then
    (some s.nextListingId,
      { s with
          listings := s.listings ++ [⟨s.nextListingId, u, b, price⟩],
          nextListingId := s.nextListingId + 1 })
  else
    (none, s)

/-- Outcome of the `/buy` branch. -/
inductive BuyResult where
  | listingGone
  | insufficientFunds
  | purchased
deriving DecidableEq

/-- The `/buy <listing_id>` branch.  The source file ends mid-statement
inside this branch: only the listing fetch (`SELECT * FROM market_listings
WHERE id=lid`) and the `if not listing:` test survive.  Modelled from the
spec: the rest of the purchase is missing from src/App.py; per §4.5, `buy`
debits the buyer (failing `InsufficientFunds` when the balance is below the
price, with no state change), credits the seller the same amount, transfers
the bee's ownership to the buyer, and closes the listing, atomically. -/
def buy (s : State) (buyer lid : Nat) : BuyResult × State :=
  match s.listings.find? (fun l => decide (l.id = lid)) with
  | none => (.listingGone, s)
  | some listing =>
    if coinsOf s buyer < listing.price then (.insufficientFunds, s)
    else
      let s1 := creditCoins s buyer (-listing.price)
      let s2 := creditCoins s1 listing.seller listing.price
      let s3 := { s2 with
        bees := s2.bees.map (fun bee =>
          if decide (bee.id = listing.bee) then { bee with user := buyer }
          else bee),
        listings := s2.listings.filter (fun l => decide (¬ l.id = lid)) }
      (.purchased, s3)

/-! ### Concrete stores used to exercise the operations -/

/-- User 7 with a full common set for template 1. -/
def sFullSet : State :=
  ⟨[⟨7, 0, none⟩], [⟨1, .common, .tank, 50⟩],
   [⟨7, 1, .wing, .common, 1⟩, ⟨7, 1, .body, .common, 1⟩,
    ⟨7, 1, .sting, .common, 1⟩, ⟨7, 1, .head, .common, 1⟩],
   [], [], [], 1, 1⟩

/-- User 7 with a full set for template 1 at both the most common and the
rarest tier. -/
def sTwoSets : State :=
  ⟨[⟨7, 0, none⟩], [⟨1, .common, .tank, 50⟩],
   [⟨7, 1, .wing, .common, 1⟩, ⟨7, 1, .body, .common, 1⟩,
    ⟨7, 1, .sting, .common, 1⟩, ⟨7, 1, .head, .common, 1⟩,
    ⟨7, 1, .wing, .wild, 1⟩, ⟨7, 1, .body, .wild, 1⟩,
    ⟨7, 1, .sting, .wild, 1⟩, ⟨7, 1, .head, .wild, 1⟩],
   [], [], [], 1, 1⟩

/-- User 7 with zero coins and an existing (but empty) wing-stock row. -/
def sEmptyRow : State :=
  ⟨[⟨7, 0, none⟩], [⟨1, .common, .tank, 50⟩],
   [⟨7, 1, .wing, .common, 0⟩], [], [], [], 1, 1⟩

/-- User 7 owning bee 1, nothing listed yet. -/
def sOneBee : State :=
  ⟨[⟨7, 0, none⟩], [⟨1, .common, .tank, 50⟩], [],
   [⟨1, 7, 1, .common, .tank, 1, 0⟩], [], [], 2, 1⟩

/-- User 7 whose last spin was at time 0. -/
def sSpun : State :=
  ⟨[⟨7, 0, some 0⟩], [⟨1, .common, .tank, 50⟩], [], [], [], [], 1, 1⟩

/-- Seller 8 lists bee 1 for 100 coins; buyer 7 has only 50. -/
def sMarket : State :=
  ⟨[⟨7, 50, none⟩, ⟨8, 0, none⟩], [⟨1, .common, .tank, 50⟩], [],
   [⟨1, 8, 1, .common, .tank, 1, 0⟩], [⟨1, 8, 1, 100⟩], [], 2, 2⟩

/-- User 7 with wing stock of template 1 in two rarities: 5 common,
2 super-rare. -/
def sTwoRarities : State :=
  ⟨[⟨7, 10, none⟩], [⟨1, .common, .tank, 50⟩],
   [⟨7, 1, .wing, .common, 5⟩, ⟨7, 1, .wing, .superRare, 2⟩],
   [], [], [], 1, 1⟩

/-! ### Lemmas about stock lookups under row updates -/

theorem find?_map_congr {α : Type} (p : α → Bool) (f : α → α) (l : List α)
    (hp : ∀ x, p (f x) = p x) :
    List.find? p (l.map f) = (List.find? p l).map f := by
  rw [List.find?_map]
  have hpf : p ∘ f = p := funext hp
  rw [hpf]

theorem pKeyMatch_set_amount (row : PartRow) (u t : Nat) (pt : PartType)
    (r : Rarity) (a : Int) :
    pKeyMatch { row with amount := a } u t pt r = pKeyMatch row u t pt r := rfl

theorem findPart_dec_one (parts : List PartRow) (u t u' t' : Nat)
    (pt pt' : PartType) (r r' : Rarity) :
    findPart (dec_one parts u t pt r) u' t' pt' r'
      = (findPart parts u' t' pt' r').map (fun row =>
          if pKeyMatch row u t pt r then { row with amount := row.amount - 1 }
          else row) := by
  unfold findPart dec_one
  apply find?_map_congr
  intro x
  by_cases h : pKeyMatch x u t pt r = true
  · simp [h, pKeyMatch_set_amount]
  · simp [h]

theorem isSome_findPart_of_one_le (parts : List PartRow) (u t : Nat)
    (pt : PartType) (r : Rarity) (h : 1 ≤ partAmountL parts u t pt r) :
    (findPart parts u t pt r).isSome = true := by
  unfold partAmountL at h
  cases hf : findPart parts u t pt r with
  | none => rw [hf] at h; simp at h
  | some row => simp

theorem isSome_findPart_dec_one (parts : List PartRow) (u t u' t' : Nat)
    (pt pt' : PartType) (r r' : Rarity) :
    (findPart (dec_one parts u t pt r) u' t' pt' r').isSome
      = (findPart parts u' t' pt' r').isSome := by
  rw [findPart_dec_one]
  cases findPart parts u' t' pt' r' <;> simp

theorem partAmountL_dec_one_same (parts : List PartRow) (u t : Nat)
    (pt : PartType) (r : Rarity) (h : (findPart parts u t pt r).isSome = true) :
    partAmountL (dec_one parts u t pt r) u t pt r
      = partAmountL parts u t pt r - 1 := by
  unfold partAmountL
  rw [findPart_dec_one]
  cases hf : findPart parts u t pt r with
  | none => rw [hf] at h; simp at h
  | some row =>
    have hp : pKeyMatch row u t pt r = true := by
      unfold findPart at hf
      have h2 := List.find?_some hf
      exact h2
    simp [hp]

theorem partAmountL_dec_one_ne (parts : List PartRow) (u t u' t' : Nat)
    (pt pt' : PartType) (r r' : Rarity)
    (h : ¬(u' = u ∧ t' = t ∧ pt' = pt ∧ r' = r)) :
    partAmountL (dec_one parts u t pt r) u' t' pt' r'
      = partAmountL parts u' t' pt' r' := by
  unfold partAmountL
  rw [findPart_dec_one]
  cases hf : findPart parts u' t' pt' r' with
  | none => simp
  | some row =>
    have hp : pKeyMatch row u' t' pt' r' = true := by
      unfold findPart at hf
      have h2 := List.find?_some hf
      exact h2
    unfold pKeyMatch at hp
    have hk := of_decide_eq_true hp
    have hnp : pKeyMatch row u t pt r = false := by
      unfold pKeyMatch
      apply decide_eq_false
      intro hcontra
      exact h ⟨hk.1.symm.trans hcontra.1, hk.2.1.symm.trans hcontra.2.1,
        hk.2.2.1.symm.trans hcontra.2.2.1, hk.2.2.2.symm.trans hcontra.2.2.2⟩
    simp [hnp]

theorem try_assemble_cond (s : State) (u t : Nat) (r : Rarity) :
    (PART_TYPES.all (fun pt => decide (1 ≤ partAmountL s.parts u t pt r)) = true)
      ↔ ∀ pt ∈ PART_TYPES, 1 ≤ partAmount s u t pt r := by
  rw [List.all_eq_true]
  constructor
  · intro h pt hpt
    exact of_decide_eq_true (h pt hpt)
  · intro h pt hpt
    exact decide_eq_true (h pt hpt)

theorem mem_PART_TYPES (pt : PartType) : pt ∈ PART_TYPES := by
  cases pt <;> simp [PART_TYPES]

/-- C1: `try_assemble` succeeds iff the user's stock is at least 1 for each
of the four part kinds at `(t, r)`; on success it decrements exactly one
unit of each of the four kinds (all other stock keys unchanged) and appends
exactly one bee with level 1 and experience 0; on failure the store is
untouched. -/
theorem C1_try_assemble_correct (s : State) (u t : Nat) (r : Rarity) :
    ((try_assemble s u t r).1.isSome
      ↔ ∀ pt ∈ PART_TYPES, 1 ≤ partAmount s u t pt r)
    ∧ ((∀ pt ∈ PART_TYPES, 1 ≤ partAmount s u t pt r) →
        (∀ pt ∈ PART_TYPES,
          partAmount (try_assemble s u t r).2 u t pt r
            = partAmount s u t pt r - 1)
        ∧ (∀ u' t' : Nat, ∀ pt' : PartType, ∀ r' : Rarity,
            u' ≠ u ∨ t' ≠ t ∨ r' ≠ r →
            partAmount (try_assemble s u t r).2 u' t' pt' r'
              = partAmount s u' t' pt' r')
        ∧ (try_assemble s u t r).2.bees = s.bees ++ [newBee s u t r]
        ∧ (newBee s u t r).level = 1 ∧ (newBee s u t r).exp = 0)
    ∧ (¬(∀ pt ∈ PART_TYPES, 1 ≤ partAmount s u t pt r) →
        (try_assemble s u t r).2 = s) := by
  by_cases hc :
      PART_TYPES.all (fun pt => decide (1 ≤ partAmountL s.parts u t pt r)) = true
  · have hcond := (try_assemble_cond s u t r).mp hc
    have hres : try_assemble s u t r
        = (some s.nextBeeId,
            { s with
                parts := PART_TYPES.foldl (fun ps pt => dec_one ps u t pt r) s.parts,
                bees := s.bees ++ [newBee s u t r],
                nextBeeId := s.nextBeeId + 1 }) := by
      unfold try_assemble newBee
      rw [if_pos hc]
    have hw : 1 ≤ partAmountL s.parts u t .wing r := hcond .wing (mem_PART_TYPES _)
    have hb : 1 ≤ partAmountL s.parts u t .body r := hcond .body (mem_PART_TYPES _)
    have hst : 1 ≤ partAmountL s.parts u t .sting r := hcond .sting (mem_PART_TYPES _)
    have hh : 1 ≤ partAmountL s.parts u t .head r := hcond .head (mem_PART_TYPES _)
    refine ⟨?_, fun _ => ⟨?_, ?_, ?_, rfl, rfl⟩, fun hn => absurd hcond hn⟩
    · rw [hres]; simpa using hcond
    · -- each of the four keys loses exactly one unit
      intro pt hpt
      rw [hres]
      simp only [partAmount]
      simp only [PART_TYPES, List.foldl_cons, List.foldl_nil]
      cases pt with
      | wing =>
        rw [partAmountL_dec_one_ne _ _ _ _ _ _ _ _ _ (by simp),
            partAmountL_dec_one_ne _ _ _ _ _ _ _ _ _ (by simp),
            partAmountL_dec_one_ne _ _ _ _ _ _ _ _ _ (by simp),
            partAmountL_dec_one_same _ _ _ _ _ (isSome_findPart_of_one_le _ _ _ _ _ hw)]
      | body =>
        rw [partAmountL_dec_one_ne _ _ _ _ _ _ _ _ _ (by simp),
            partAmountL_dec_one_ne _ _ _ _ _ _ _ _ _ (by simp),
            partAmountL_dec_one_same _ _ _ _ _ ?_,
            partAmountL_dec_one_ne _ _ _ _ _ _ _ _ _ (by simp)]
        rw [isSome_findPart_dec_one]
        exact isSome_findPart_of_one_le _ _ _ _ _ hb
      | sting =>
        rw [partAmountL_dec_one_ne _ _ _ _ _ _ _ _ _ (by simp),
            partAmountL_dec_one_same _ _ _ _ _ ?_,
            partAmountL_dec_one_ne _ _ _ _ _ _ _ _ _ (by simp),
            partAmountL_dec_one_ne _ _ _ _ _ _ _ _ _ (by simp)]
        rw [isSome_findPart_dec_one, isSome_findPart_dec_one]
        exact isSome_findPart_of_one_le _ _ _ _ _ hst
      | head =>
        rw [partAmountL_dec_one_same _ _ _ _ _ ?_,
            partAmountL_dec_one_ne _ _ _ _ _ _ _ _ _ (by simp),
            partAmountL_dec_one_ne _ _ _ _ _ _ _ _ _ (by simp),
            partAmountL_dec_one_ne _ _ _ _ _ _ _ _ _ (by simp)]
        rw [isSome_findPart_dec_one, isSome_findPart_dec_one, isSome_findPart_dec_one]
        exact isSome_findPart_of_one_le _ _ _ _ _ hh
    · -- every other stock key is untouched
      intro u' t' pt' r' hne
      rw [hres]
      simp only [partAmount]
      simp only [PART_TYPES, List.foldl_cons, List.foldl_nil]
      have hkey : ∀ pt : PartType, ¬(u' = u ∧ t' = t ∧ pt' = pt ∧ r' = r) := by
        intro pt hcontra
        rcases hne with h | h | h
        · exact h hcontra.1
        · exact h hcontra.2.1
        · exact h hcontra.2.2.2
      rw [partAmountL_dec_one_ne _ _ _ _ _ _ _ _ _ (hkey _),
          partAmountL_dec_one_ne _ _ _ _ _ _ _ _ _ (hkey _),
          partAmountL_dec_one_ne _ _ _ _ _ _ _ _ _ (hkey _),
          partAmountL_dec_one_ne _ _ _ _ _ _ _ _ _ (hkey _)]
    · rw [hres]
  · have hcond := hc ∘ (try_assemble_cond s u t r).mpr
    have hres : try_assemble s u t r = (none, s) := by
      unfold try_assemble
      rw [if_neg hc]
    refine ⟨?_, fun h => absurd h hcond, fun _ => by rw [hres]⟩
    rw [hres]
    simp only [Option.isSome_none, Bool.false_eq_true, false_iff]
    exact hcond

/-- Witness for C1: user 7 holds one of each common part of template 1, and
`try_assemble` mints the level-1, exp-0 bee. -/
theorem C1_try_assemble_correct_witness :
    (∀ pt ∈ PART_TYPES, 1 ≤ partAmount sFullSet 7 1 pt .common)
    ∧ (try_assemble sFullSet 7 1 .common).2.bees
        = sFullSet.bees ++ [newBee sFullSet 7 1 .common] :=
  ⟨by decide,
   ((C1_try_assemble_correct sFullSet 7 1 .common).2.1 (by decide)).2.2.1⟩

/-! ### C8 — the quantity law of `draw_amount` -/

theorem draw_amount_low (r : Nat) (c : Fin 3) (h : r ≤ 45) :
    draw_amount r c = choice3 1 2 3 c := by
  unfold draw_amount
  rw [if_pos h]

theorem draw_amount_mid (r : Nat) (c : Fin 3) (h1 : 45 < r) (h2 : r ≤ 80) :
    draw_amount r c = choice3 4 5 6 c := by
  unfold draw_amount
  rw [if_neg (by omega), if_pos (by omega)]

theorem draw_amount_high (r : Nat) (c : Fin 3) (h1 : 80 < r) (h2 : r ≤ 95) :
    draw_amount r c = choice3 7 8 9 c := by
  unfold draw_amount
  rw [if_neg (by omega), if_neg (by omega), if_pos (by omega)]

theorem draw_amount_top (r : Nat) (c : Fin 3) (h1 : 95 < r) :
    draw_amount r c = 10 := by
  unfold draw_amount
  rw [if_neg (by omega), if_neg (by omega), if_neg (by omega)]

/-- Every bucket value is hit by exactly one choice index (`∃!` unfolded to
its definition, so that the concrete instances are decidable). -/
theorem choice3_unique (a b d : Nat)
    (h : ∀ v ∈ [a, b, d], ∃ c' : Fin 3, choice3 a b d c' = v
      ∧ ∀ y : Fin 3, choice3 a b d y = v → y = c') :
    ∀ v ∈ [a, b, d], ∃! c' : Fin 3, choice3 a b d c' = v := h

/-- C8: for a percentile roll `r ∈ [1, 100]`, the drawn quantity is the
uniform choice over `{1, 2, 3}` when `r ≤ 45`, over `{4, 5, 6}` when
`45 < r ≤ 80`, over `{7, 8, 9}` when `80 < r ≤ 95`, and exactly 10 when
`r > 95`.  Uniformity is expressed by the choice index: every value of the
bucket is produced by exactly one of the three equally likely indices. -/
theorem C8_draw_amount_law (r : Nat) (c : Fin 3) (h1 : 1 ≤ r) (h2 : r ≤ 100) :
    (r ≤ 45 → draw_amount r c ∈ [1, 2, 3]
      ∧ ∀ v ∈ [1, 2, 3], ∃! c' : Fin 3, draw_amount r c' = v)
    ∧ (45 < r → r ≤ 80 → draw_amount r c ∈ [4, 5, 6]
      ∧ ∀ v ∈ [4, 5, 6], ∃! c' : Fin 3, draw_amount r c' = v)
    ∧ (80 < r → r ≤ 95 → draw_amount r c ∈ [7, 8, 9]
      ∧ ∀ v ∈ [7, 8, 9], ∃! c' : Fin 3, draw_amount r c' = v)
    ∧ (95 < r → draw_amount r c = 10) := by
  refine ⟨fun hr => ?_, fun hr hr' => ?_, fun hr hr' => ?_,
    fun hr => draw_amount_top r c hr⟩
  · have he : ∀ c' : Fin 3, draw_amount r c' = choice3 1 2 3 c' :=
      fun c' => draw_amount_low r c' hr
    simp only [he]
    exact ⟨by fin_cases c <;> decide, choice3_unique _ _ _ (by decide)⟩
  · have he : ∀ c' : Fin 3, draw_amount r c' = choice3 4 5 6 c' :=
      fun c' => draw_amount_mid r c' hr hr'
    simp only [he]
    exact ⟨by fin_cases c <;> decide, choice3_unique _ _ _ (by decide)⟩
  · have he : ∀ c' : Fin 3, draw_amount r c' = choice3 7 8 9 c' :=
      fun c' => draw_amount_high r c' hr hr'
    simp only [he]
    exact ⟨by fin_cases c <;> decide, choice3_unique _ _ _ (by decide)⟩

/-- Witness for C8 at the roll 50 (middle bucket) and choice index 0. -/
theorem C8_draw_amount_law_witness :
    (1 ≤ 50 ∧ (50 : Nat) ≤ 100)
    ∧ (45 < 50 ∧ (50 : Nat) ≤ 80)
    ∧ draw_amount 50 ⟨0, by decide⟩ ∈ [4, 5, 6] :=
  ⟨⟨by decide, by decide⟩, ⟨by decide, by decide⟩,
   ((C8_draw_amount_law 50 ⟨0, by decide⟩ (by decide) (by decide)).2.1
     (by decide) (by decide)).1⟩

/-! ### C3 — the 24-hour cooldown of `cmd_daily_spin` -/

theorem ensure_user_lastSpin (s : State) (u : Nat) :
    userLastSpin (ensure_user s u) u = userLastSpin s u := by
  unfold ensure_user
  by_cases hany : s.users.any (fun ur => decide (ur.id = u)) = true
  · rw [if_pos hany]
  · rw [if_neg hany]
    have hnone : s.users.find? (fun ur => decide (ur.id = u)) = none := by
      rw [List.find?_eq_none]
      intro x hx hpx
      exact hany (List.any_eq_true.mpr ⟨x, hx, hpx⟩)
    unfold userLastSpin
    simp [List.find?_append, hnone]

theorem ensure_user_of_lastSpin_some (s : State) (u : Nat) (last : Int)
    (h : userLastSpin s u = some last) : ensure_user s u = s := by
  unfold ensure_user
  by_cases hany : s.users.any (fun ur => decide (ur.id = u)) = true
  · rw [if_pos hany]
  · exfalso
    have hnone : s.users.find? (fun ur => decide (ur.id = u)) = none := by
      rw [List.find?_eq_none]
      intro x hx hpx
      exact hany (List.any_eq_true.mpr ⟨x, hx, hpx⟩)
    unfold userLastSpin at h
    rw [hnone] at h
    simp at h

/-- C3: a spin strictly less than 24 h (86400 s) after the user's last
recorded spin answers the cooldown message, with the remaining time, and
changes nothing in the store; a spin at or beyond 24 h — or by a user with
no recorded spin — never takes the cooldown branch. -/
theorem C3_daily_spin_cooldown (s : State) (u : Nat) (now : Int)
    (tp : Option Template) (pt : PartType) (r100 : Nat) (c : Fin 3) :
    (∀ last, userLastSpin s u = some last →
      (now - last < 86400 →
        cmd_daily_spin s u now tp pt r100 c
          = (.cooldown (86400 - (now - last)), s))
      ∧ (86400 ≤ now - last →
        ∀ rem, (cmd_daily_spin s u now tp pt r100 c).1 ≠ .cooldown rem))
    ∧ (userLastSpin s u = none →
        ∀ rem, (cmd_daily_spin s u now tp pt r100 c).1 ≠ .cooldown rem) := by
  constructor
  · intro last hlast
    have hs1 : userLastSpin (ensure_user s u) u = some last := by
      rw [ensure_user_lastSpin]; exact hlast
    have hsame : ensure_user s u = s := ensure_user_of_lastSpin_some s u last hlast
    constructor
    · intro hlt
      unfold cmd_daily_spin
      rw [hs1, hsame]
      simp only [if_pos hlt]
    · intro hge rem
      unfold cmd_daily_spin
      rw [hs1]
      simp only [if_neg (by omega : ¬ now - last < 86400)]
      cases tp <;> simp [spin_go]
  · intro hnone rem
    have hs1 : userLastSpin (ensure_user s u) u = none := by
      rw [ensure_user_lastSpin]; exact hnone
    unfold cmd_daily_spin
    rw [hs1]
    cases tp <;> simp [spin_go]

/-- Witness for C3: user 7 last spun at time 0 and retries at time 100 —
cooldown, store unchanged; the same user at time 86400 is allowed through. -/
theorem C3_daily_spin_cooldown_witness :
    (userLastSpin sSpun 7 = some 0
      ∧ cmd_daily_spin sSpun 7 100 (some ⟨1, .common, .tank, 50⟩) .wing 50
          ⟨0, by decide⟩ = (.cooldown 86300, sSpun))
    ∧ ((86400 : Int) - 0 ≥ 86400
      ∧ ∀ rem, (cmd_daily_spin sSpun 7 86400 (some ⟨1, .common, .tank, 50⟩)
          .wing 50 ⟨0, by decide⟩).1 ≠ .cooldown rem) :=
  ⟨⟨by decide,
    by
      have h := ((C3_daily_spin_cooldown sSpun 7 100 (some ⟨1, .common, .tank, 50⟩)
        .wing 50 ⟨0, by decide⟩).1 0 (by decide)).1 (by decide)
      simpa using h⟩,
   ⟨by decide,
    ((C3_daily_spin_cooldown sSpun 7 86400 (some ⟨1, .common, .tank, 50⟩)
      .wing 50 ⟨0, by decide⟩).1 0 (by decide)).2 (by decide)⟩⟩

/-! ### C2 — the rarity order of the `/assemble` branch -/

/-- C2 (divergence): user 7 holds a full set of template 1 at both the most
common tier and the rarest (wild) tier, yet `/assemble` mints the *common*
bee and leaves the wild parts untouched: the branch sorts the candidate
rarities ascending by their `RARITIES` index, i.e. most common first, not
rarest first. -/
theorem C2_assemble_tries_most_common_first :
    (assemble_cmd sTwoSets 7 1).1 = some 1
    ∧ (assemble_cmd sTwoSets 7 1).2.bees.map (·.rarity) = [.common]
    ∧ partAmount (assemble_cmd sTwoSets 7 1).2 7 1 .wing .wild = 1
    ∧ partAmount (assemble_cmd sTwoSets 7 1).2 7 1 .wing .common = 0 := by
  decide

/-! ### C4 — non-negativity of balances and stock -/

/-- C4 (divergence): the `/sell_part` branch parses the amount with
`int(text[3])` and never checks its sign; selling "-1" wing leaves user 7,
who had 0 coins, with a balance of -50 — and even grows the stock row from
0 to 1.  The non-negativity invariant fails after a part sale. -/
theorem C4_sale_drives_balance_negative :
    (sell_part sEmptyRow 7 1 .wing (-1)).1 = some (.common, -50)
    ∧ coinsOf (sell_part sEmptyRow 7 1 .wing (-1)).2 7 = -50
    ∧ coinsOf (sell_part sEmptyRow 7 1 .wing (-1)).2 7 < 0
    ∧ partAmount (sell_part sEmptyRow 7 1 .wing (-1)).2 7 1 .wing .common = 1 := by
  decide

/-! ### C5 and C6 — what `/sell_bee` does and does not check -/

/-- C5 (counterexample): listing bee 1 at price 0 does not fail with any
price error — it succeeds and creates a listing with price 0. -/
theorem C5_zero_price_listing_accepted :
    (sell_bee sOneBee 7 1 0).1 = some 1
    ∧ (sell_bee sOneBee 7 1 0).2.listings = [⟨1, 7, 1, 0⟩] := by
  decide

/-- C5 (amended): the `/sell_bee` branch performs no price validation: for
every price, non-positive prices included, a listing call by the creature's
owner succeeds and creates a listing carrying exactly that price. -/
theorem C5_no_price_validation (s : State) (u b : Nat) (price : Int)
    (h : (s.bees.any (fun bee => decide (bee.id = b ∧ bee.user = u))) = true) :
    sell_bee s u b price
      = (some s.nextListingId,
         { s with
             listings := s.listings ++ [⟨s.nextListingId, u, b, price⟩],
             nextListingId := s.nextListingId + 1 }) := by
  unfold sell_bee
  rw [if_pos h]

/-- Witness for the amended C5, at price -5. -/
theorem C5_no_price_validation_witness :
    ((sOneBee.bees.any (fun bee => decide (bee.id = 1 ∧ bee.user = 7))) = true)
    ∧ sell_bee sOneBee 7 1 (-5)
      = (some sOneBee.nextListingId,
         { sOneBee with
             listings := sOneBee.listings ++ [⟨sOneBee.nextListingId, 7, 1, -5⟩],
             nextListingId := sOneBee.nextListingId + 1 }) :=
  ⟨by decide, C5_no_price_validation sOneBee 7 1 (-5) (by decide)⟩

/-- C6 (counterexample): listing bee 1 twice succeeds both times, leaving
two simultaneous listings for the same creature. -/
theorem C6_double_listing_accepted :
    (sell_bee (sell_bee sOneBee 7 1 5).2 7 1 7).1 = some 2
    ∧ ((sell_bee (sell_bee sOneBee 7 1 5).2 7 1 7).2.listings.filter
        (fun l => decide (l.bee = 1))).length = 2 := by
  decide

/-- C6 (amended): the `/sell_bee` branch has no `AlreadyListed` check: even
when a listing for the creature already exists, a further listing call by
the owner succeeds and appends one more listing for that creature. -/
theorem C6_no_already_listed_check (s : State) (u b : Nat) (price : Int)
    (hown : (s.bees.any (fun bee => decide (bee.id = b ∧ bee.user = u))) = true)
    (hlisted : ∃ l ∈ s.listings, l.bee = b) :
    (sell_bee s u b price).1.isSome = true
    ∧ 1 ≤ (s.listings.filter (fun l => decide (l.bee = b))).length
    ∧ ((sell_bee s u b price).2.listings.filter
        (fun l => decide (l.bee = b))).length
      = (s.listings.filter (fun l => decide (l.bee = b))).length + 1 := by
  unfold sell_bee
  rw [if_pos hown]
  refine ⟨rfl, ?_, ?_⟩
  · obtain ⟨l, hl, hb⟩ := hlisted
    exact List.length_pos_of_mem
      (List.mem_filter.mpr ⟨hl, decide_eq_true hb⟩)
  · simp [List.filter_append]

/-- Witness for the amended C6: bee 1 already has listing 1, and a second
listing is still created. -/
theorem C6_no_already_listed_check_witness :
    (((sell_bee sOneBee 7 1 5).2.bees.any
        (fun bee => decide (bee.id = 1 ∧ bee.user = 7))) = true)
    ∧ (∃ l ∈ (sell_bee sOneBee 7 1 5).2.listings, l.bee = 1)
    ∧ (((sell_bee (sell_bee sOneBee 7 1 5).2 7 1 7).2.listings.filter
        (fun l => decide (l.bee = 1))).length
      = ((sell_bee sOneBee 7 1 5).2.listings.filter
        (fun l => decide (l.bee = 1))).length + 1) :=
  ⟨by decide, by decide,
   (C6_no_already_listed_check (sell_bee sOneBee 7 1 5).2 7 1 7 (by decide)
     (by decide)).2.2⟩

/-! ### C7 — purchase with insufficient funds (spec-modelled settlement) -/

/-- C7: when the fetched listing exists but the buyer's balance is below
its price, `buy` fails with `InsufficientFunds` and returns the store
exactly unchanged — the listing stays active, the creature's owner is
unchanged, and no coins move on either side. -/
theorem C7_buy_insufficient_funds (s : State) (buyer lid : Nat) (l : Listing)
    (hfind : s.listings.find? (fun x => decide (x.id = lid)) = some l)
    (hpoor : coinsOf s buyer < l.price) :
    buy s buyer lid = (.insufficientFunds, s) := by
  unfold buy
  rw [hfind]
  simp only [if_pos hpoor]

/-- Witness for C7: buyer 7 holds 50 coins against listing 1 priced 100. -/
theorem C7_buy_insufficient_funds_witness :
    (sMarket.listings.find? (fun x => decide (x.id = 1)) = some ⟨1, 8, 1, 100⟩
      ∧ coinsOf sMarket 7 < (100 : Int))
    ∧ buy sMarket 7 1 = (.insufficientFunds, sMarket) :=
  ⟨⟨by decide, by decide⟩,
   C7_buy_insufficient_funds sMarket 7 1 ⟨1, 8, 1, 100⟩ (by decide) (by decide)⟩

/-! ### C9 and C10 — the `/sell_part` branch -/

theorem best_row_spec (l : List PartRow) :
    ∀ acc row, best_row acc l = some row →
      (∀ q ∈ l, q.amount ≤ row.amount)
      ∧ (row ∈ l ∨ acc = some row)
      ∧ (∀ b, acc = some b → b.amount ≤ row.amount) := by
  induction l with
  | nil =>
    intro acc row h
    cases acc with
    | none => cases h
    | some b =>
      have hacc : b = row := by injection h
      refine ⟨by simp, Or.inr (by rw [hacc]), fun b' hb' => ?_⟩
      injection hb' with hb'
      rw [← hb', hacc]
  | cons hd tl ih =>
    intro acc row h
    cases acc with
    | none =>
      have h' : best_row (some hd) tl = some row := h
      obtain ⟨htl, hmem, hle⟩ := ih (some hd) row h'
      have hhd : hd.amount ≤ row.amount := hle hd rfl
      refine ⟨?_, ?_, fun b hb => by cases hb⟩
      · intro q hq
        rcases List.mem_cons.mp hq with hq | hq
        · rw [hq]; exact hhd
        · exact htl q hq
      · left
        rcases hmem with hmem | hmem
        · exact List.mem_cons_of_mem _ hmem
        · injection hmem with hmem
          rw [← hmem]
          exact List.mem_cons_self _ _
    | some b =>
      have h' : best_row (some (if b.amount < hd.amount then hd else b)) tl
          = some row := h
      obtain ⟨htl, hmem, hle⟩ := ih _ row h'
      have hm : (if b.amount < hd.amount then hd else b).amount ≤ row.amount :=
        hle _ rfl
      have hb2 : b.amount ≤ row.amount := by
        by_cases hc : b.amount < hd.amount
        · rw [if_pos hc] at hm; omega
        · rw [if_neg hc] at hm; exact hm
      have hhd : hd.amount ≤ row.amount := by
        by_cases hc : b.amount < hd.amount
        · rw [if_pos hc] at hm; exact hm
        · rw [if_neg hc] at hm; omega
      refine ⟨?_, ?_, ?_⟩
      · intro q hq
        rcases List.mem_cons.mp hq with hq | hq
        · rw [hq]; exact hhd
        · exact htl q hq
      · rcases hmem with hmem | hmem
        · exact Or.inl (List.mem_cons_of_mem _ hmem)
        · injection hmem with hmem
          by_cases hc : b.amount < hd.amount
          · rw [if_pos hc] at hmem
            exact Or.inl (by rw [← hmem]; exact List.mem_cons_self _ _)
          · rw [if_neg hc] at hmem
            exact Or.inr (by rw [hmem])
      · intro b' hb'
        injection hb' with hb'
        rw [← hb']
        exact hb2

/-- The row returned by `ORDER BY amount DESC LIMIT 1` is a stock row of the
`(u, t, pt)` group carrying its maximal amount. -/
theorem selectBest_max (parts : List PartRow) (u t : Nat) (pt : PartType)
    (row : PartRow) (h : selectBest parts u t pt = some row) :
    row ∈ parts ∧ gKeyMatch row u t pt = true
    ∧ ∀ q ∈ parts, gKeyMatch q u t pt = true → q.amount ≤ row.amount := by
  unfold selectBest at h
  obtain ⟨hall, hmem, -⟩ := best_row_spec _ none row h
  rcases hmem with hmem | hmem
  · have hx := List.mem_filter.mp hmem
    exact ⟨hx.1, hx.2,
      fun q hq hgq => hall q (List.mem_filter.mpr ⟨hq, hgq⟩)⟩
  · cases hmem

theorem gKeyMatch_set_amount (row : PartRow) (u t : Nat) (pt : PartType)
    (a : Int) :
    gKeyMatch { row with amount := a } u t pt = gKeyMatch row u t pt := rfl

theorem gKeyMatch_of_pKeyMatch (row : PartRow) (u t : Nat) (pt : PartType)
    (r : Rarity) (h : pKeyMatch row u t pt r = true) :
    gKeyMatch row u t pt = true := by
  unfold pKeyMatch at h
  have hk := of_decide_eq_true h
  exact decide_eq_true ⟨hk.1, hk.2.1, hk.2.2.1⟩

/-- `UPDATE users SET coins = coins + amt WHERE id=u` grows an existing
user's balance by exactly `amt`. -/
theorem coinsOf_creditCoins (s : State) (u : Nat) (amt : Int)
    (hu : (s.users.any (fun ur => decide (ur.id = u))) = true) :
    coinsOf (creditCoins s u amt) u = coinsOf s u + amt := by
  unfold coinsOf creditCoins
  rw [find?_map_congr]
  · obtain ⟨x, hx, hpx⟩ := List.any_eq_true.mp hu
    have hsome : (s.users.find? (fun ur => decide (ur.id = u))).isSome = true :=
      List.find?_isSome.mpr ⟨x, hx, hpx⟩
    cases hf : s.users.find? (fun ur => decide (ur.id = u)) with
    | none => rw [hf] at hsome; simp at hsome
    | some ur =>
      have hp := List.find?_some hf
      simp [hp, of_decide_eq_true hp]
  · intro x
    by_cases hx : decide (x.id = u) = true
    · simp [hx]
    · simp [hx]

theorem findPart_sale_update (parts : List PartRow) (u t u' t' : Nat)
    (pt pt' : PartType) (amt : Int) (r' : Rarity) :
    findPart (sale_update parts u t pt amt) u' t' pt' r'
      = (findPart parts u' t' pt' r').map (fun q =>
          if gKeyMatch q u t pt && decide (amt ≤ q.amount) then
            { q with amount := q.amount - amt }
          else q) := by
  unfold findPart sale_update
  apply find?_map_congr
  intro x
  by_cases hx : (gKeyMatch x u t pt && decide (amt ≤ x.amount)) = true
  · simp [hx, pKeyMatch_set_amount]
  · simp [hx]

/-- C9: the sale path picks the `(u, t, pt)` stock row with the highest
current amount — the caller specifies no rarity — fails with no state
change when that row's amount is below the requested amount (or when no row
exists), and otherwise credits the user exactly that row's rarity base
value times the amount sold. -/
theorem C9_sell_part_uses_highest_amount_row (s : State) (u t : Nat)
    (pt : PartType) (amt : Int)
    (hu : (s.users.any (fun ur => decide (ur.id = u))) = true) :
    (selectBest s.parts u t pt = none → sell_part s u t pt amt = (none, s))
    ∧ ∀ row, selectBest s.parts u t pt = some row →
        (row ∈ s.parts ∧ gKeyMatch row u t pt = true
          ∧ ∀ q ∈ s.parts, gKeyMatch q u t pt = true → q.amount ≤ row.amount)
        ∧ (row.amount < amt → sell_part s u t pt amt = (none, s))
        ∧ (amt ≤ row.amount →
            (sell_part s u t pt amt).1
              = some (row.rarity, RARITY_BASE_VALUE row.rarity * amt)
            ∧ coinsOf (sell_part s u t pt amt).2 u
              = coinsOf s u + RARITY_BASE_VALUE row.rarity * amt) := by
  constructor
  · intro hnone
    unfold sell_part
    rw [hnone]
  · intro row hsel
    refine ⟨selectBest_max s.parts u t pt row hsel, ?_, ?_⟩
    · intro hlt
      unfold sell_part
      rw [hsel]
      simp only [if_pos hlt]
    · intro hge
      have hres : sell_part s u t pt amt
          = (some (row.rarity, RARITY_BASE_VALUE row.rarity * amt),
             creditCoins { s with parts := sale_update s.parts u t pt amt } u
               (RARITY_BASE_VALUE row.rarity * amt)) := by
        unfold sell_part
        rw [hsel]
        simp only [if_neg (by omega : ¬ row.amount < amt)]
      rw [hres]
      exact ⟨rfl, coinsOf_creditCoins _ u _ hu⟩

/-- Witness for C9: user 7 has 5 common and 2 super-rare wings of template
1; selling 3 wings prices them from the common (highest-amount) row, and
the balance grows from 10 to 160. -/
theorem C9_sell_part_uses_highest_amount_row_witness :
    ((sTwoRarities.users.any (fun ur => decide (ur.id = 7))) = true
      ∧ selectBest sTwoRarities.parts 7 1 .wing
          = some ⟨7, 1, .wing, .common, 5⟩
      ∧ (3 : Int) ≤ 5)
    ∧ (sell_part sTwoRarities 7 1 .wing 3).1 = some (.common, 150)
    ∧ coinsOf (sell_part sTwoRarities 7 1 .wing 3).2 7 = 160 := by
  refine ⟨⟨by decide, by decide, by decide⟩, ?_⟩
  have h := ((C9_sell_part_uses_highest_amount_row sTwoRarities 7 1 .wing 3
    (by decide)).2 ⟨7, 1, .wing, .common, 5⟩ (by decide)).2.2 (by decide)
  exact ⟨h.1.trans (by decide), h.2.trans (by decide)⟩

/-- C10: a successful part sale of `amt` units decrements by `amt` every
rarity row of `(u, t, pt)` whose amount is at least `amt` — not only the
highest-amount row that set the price — leaves the rows with amount below
`amt` unchanged, and credits the coins exactly once. -/
theorem C10_sale_decrements_every_eligible_rarity_row (s : State) (u t : Nat)
    (pt : PartType) (amt : Int) (row : PartRow)
    (hsel : selectBest s.parts u t pt = some row) (hge : amt ≤ row.amount)
    (hu : (s.users.any (fun ur => decide (ur.id = u))) = true) :
    (sell_part s u t pt amt).1
      = some (row.rarity, RARITY_BASE_VALUE row.rarity * amt)
    ∧ (∀ r : Rarity, ∀ q, findPart s.parts u t pt r = some q →
        (amt ≤ q.amount →
          partAmount (sell_part s u t pt amt).2 u t pt r = q.amount - amt)
        ∧ (q.amount < amt →
          partAmount (sell_part s u t pt amt).2 u t pt r = q.amount))
    ∧ coinsOf (sell_part s u t pt amt).2 u
      = coinsOf s u + RARITY_BASE_VALUE row.rarity * amt := by
  have hres : sell_part s u t pt amt
      = (some (row.rarity, RARITY_BASE_VALUE row.rarity * amt),
         creditCoins { s with parts := sale_update s.parts u t pt amt } u
           (RARITY_BASE_VALUE row.rarity * amt)) := by
    unfold sell_part
    rw [hsel]
    simp only [if_neg (by omega : ¬ row.amount < amt)]
  rw [hres]
  refine ⟨rfl, ?_, coinsOf_creditCoins _ u _ hu⟩
  intro r q hq
  have hg : gKeyMatch q u t pt = true := by
    apply gKeyMatch_of_pKeyMatch q u t pt r
    unfold findPart at hq
    have h2 := List.find?_some hq
    exact h2
  have hpa : partAmount
      (creditCoins { s with parts := sale_update s.parts u t pt amt } u
        (RARITY_BASE_VALUE row.rarity * amt)) u t pt r
      = partAmountL (sale_update s.parts u t pt amt) u t pt r := rfl
  constructor
  · intro hle
    rw [hpa]
    unfold partAmountL
    rw [findPart_sale_update, hq]
    have hc : (gKeyMatch q u t pt && decide (amt ≤ q.amount)) = true := by
      rw [hg, decide_eq_true hle]
      rfl
    simp only [Option.map_some', Option.getD_some]
    rw [hc]
    simp
  · intro hlt
    rw [hpa]
    unfold partAmountL
    rw [findPart_sale_update, hq]
    have hc : (gKeyMatch q u t pt && decide (amt ≤ q.amount)) = false := by
      rw [hg, decide_eq_false (by omega : ¬ amt ≤ q.amount)]
      rfl
    simp only [Option.map_some', Option.getD_some]
    rw [hc]
    simp

/-- Witness for C10: selling 2 wings from stocks of 5 common and 2
super-rare decrements both rows by 2 (5 → 3 and 2 → 0) while the coins are
credited once (10 → 110, from the common row's price 50 × 2). -/
theorem C10_sale_decrements_every_eligible_rarity_row_witness :
    (selectBest sTwoRarities.parts 7 1 .wing = some ⟨7, 1, .wing, .common, 5⟩
      ∧ (2 : Int) ≤ 5
      ∧ (sTwoRarities.users.any (fun ur => decide (ur.id = 7))) = true)
    ∧ partAmount (sell_part sTwoRarities 7 1 .wing 2).2 7 1 .wing .common = 3
    ∧ partAmount (sell_part sTwoRarities 7 1 .wing 2).2 7 1 .wing .superRare = 0
    ∧ coinsOf (sell_part sTwoRarities 7 1 .wing 2).2 7 = 110 := by
  refine ⟨⟨by decide, by decide, by decide⟩, ?_, ?_, ?_⟩
  all_goals
    have h := C10_sale_decrements_every_eligible_rarity_row sTwoRarities 7 1
      .wing 2 ⟨7, 1, .wing, .common, 5⟩ (by decide) (by decide) (by decide)
  · exact ((h.2.1 .common ⟨7, 1, .wing, .common, 5⟩ (by decide)).1
      (by decide)).trans (by decide)
  · exact ((h.2.1 .superRare ⟨7, 1, .wing, .superRare, 2⟩ (by decide)).1
      (by decide)).trans (by decide)
  · exact h.2.2.trans (by decide)

end PcholFarm
